import Mathlib

/-!
Verification of the APScheduler core: a shallow embedding of the scheduler
tick (`schedulers/sync.py`, `schedulers/async_.py`) and of the two data-store
backends (`datastores/sqlalchemy.py`, `datastores/mongodb.py`).

Timestamps are modelled as integers (seconds); nullable columns as `Option`;
serialized blobs are omitted where no claim depends on them.
-/

namespace APScheduler

/-- `CoalescePolicy` from `enums.py`, as used by `Scheduler.run`. -/
inductive CoalescePolicy
  | earliest
  | latest
  | all
deriving DecidableEq

/-- One observable behaviour of a call to `trigger.next()`: it either yields a
timestamp (or `None` when the trigger is exhausted), or it raises. -/
inductive TrigStep
  | yields (t : Option Int)
  | raises
deriving DecidableEq

/-- A job record as created by the scheduler tick (`Job(task_id=...,
schedule_id=..., scheduled_fire_time=fire_time, ...)` in `Scheduler.run`);
fields not relevant to the claims are omitted. -/
structure JobRec where
  task_id : String
  schedule_id : String
  scheduled_fire_time : Int
deriving DecidableEq

/-- The in-memory state of one acquired schedule at the start of a tick.
Acquired schedules always have a non-null `next_fire_time` (the store only
hands out schedules whose `next_fire_time` is not null), so it is an `Int`.
`trig` lists the successive results of the `trigger.next()` calls the tick
will make. -/
structure ScheduleState where
  id : String
  task_id : String
  coalesce : CoalescePolicy
  next_fire_time : Int
  trig : List TrigStep
deriving DecidableEq

/-- The `while True` loop in `Scheduler.run` / `AsyncScheduler.run` that turns
trigger output into the `fire_times` list.  `stored` is the schedule's
`next_fire_time` at loop entry; the result is the final `fire_times` list and
the schedule's `next_fire_time` after the loop.  On an exception from
`trigger.next()` the code only logs and `break`s, so `next_fire_time` keeps
the stored value; the `[]` case (a trigger that stops answering) is
unreachable for real triggers and also keeps the stored value. -/
def fire_times_loop (policy : CoalescePolicy) (now stored : Int) :
    List Int → List TrigStep → List Int × Option Int
  | fireTimes, [] => (fireTimes, some stored)
  | fireTimes, TrigStep.raises :: _ => (fireTimes, some stored)
  | fireTimes, TrigStep.yields none :: _ => (fireTimes, none)
  | fireTimes, TrigStep.yields (some t) :: rest =>
    if now < t then (fireTimes, some t)
    else
      match policy with
      | CoalescePolicy.all => fire_times_loop policy now stored (fireTimes ++ [t]) rest
      | CoalescePolicy.latest => fire_times_loop policy now stored (t :: fireTimes.tail) rest
      | CoalescePolicy.earliest => fire_times_loop policy now stored fireTimes rest

/-- Processing of one acquired schedule in a tick of `Scheduler.run`:
`fire_times` starts as `[schedule.next_fire_time]`, the trigger loop runs, and
one job is created per surviving fire time.  Returns the created jobs and the
schedule's new `next_fire_time`. -/
def process_schedule (now : Int) (s : ScheduleState) : List JobRec × Option Int :=
  let r := fire_times_loop s.coalesce now s.next_fire_time [s.next_fire_time] s.trig
  (r.1.map (fun t => ⟨s.task_id, s.id, t⟩), r.2)

/-- Observable data-store calls made during one scheduler tick. -/
inductive TickEvent
  | add_job (schedule_id : String) (fire_time : Int)
  | release (schedule_ids : List String)
deriving DecidableEq

/-- The `add_job` calls made for one schedule during a tick. -/
def schedule_job_events (now : Int) (s : ScheduleState) : List TickEvent :=
  ((process_schedule now s).1).map (fun j => TickEvent.add_job j.schedule_id j.scheduled_fire_time)

/-- The data-store call trace of one tick of the synchronous `Scheduler.run`:
jobs are added for every schedule, then `release_schedules` is called once
with the whole acquired batch. -/
def sync_tick_trace (now : Int) (schedules : List ScheduleState) : List TickEvent :=
  (schedules.flatMap (schedule_job_events now)) ++
    [TickEvent.release (schedules.map (fun s => s.id))]

/-- The data-store call trace of one tick of `AsyncScheduler.run`: the
`release_schedules` call sits inside the `for schedule in schedules` loop, so
after each schedule's jobs are added, `release_schedules` is called with the
whole acquired batch. -/
def async_tick_trace (now : Int) (schedules : List ScheduleState) : List TickEvent :=
  schedules.flatMap (fun s =>
    schedule_job_events now s ++ [TickEvent.release (schedules.map (fun x => x.id))])

/-- `true` when some `release` event naming a schedule occurs strictly before
an `add_job` event for that same schedule. -/
def release_before_job : List TickEvent → Bool
  | [] => false
  | TickEvent.release ids :: rest =>
    (rest.any (fun e =>
      match e with
      | TickEvent.add_job sid _ => ids.contains sid
      | TickEvent.release _ => false)) || release_before_job rest
  | TickEvent.add_job _ _ :: rest => release_before_job rest

/-- The inter-tick sleep computation of `Scheduler.run` / `AsyncScheduler.run`:
`wait_time` stays `None` unless fewer than 100 schedules were acquired, and is
then `(now - next_fire_time).total_seconds()` when the store reports a next
run time. -/
def wait_time (num_schedules : Nat) (now : Int) (next_fire_time : Option Int) : Option Int :=
  if num_schedules < 100 then next_fire_time.map (fun t => now - t) else none

/-- Follows the spec's words: the sleep time is `(next_fire_time - now)`
seconds, clamped to be non-negative. -/
def spec_wait_time (num_schedules : Nat) (now : Int) (next_fire_time : Option Int) : Option Int :=
  if num_schedules < 100 then next_fire_time.map (fun t => max (t - now) 0) else none

/-- `JobOutcome` from `enums.py`. -/
inductive JobOutcome
  | success
  | error
  | missed_start_deadline
  | cancelled
deriving DecidableEq

/-- A full job result as consumed by `run_job`; `V` is the type of the opaque
return value, `E` of the opaque recorded exception. -/
structure FullJobResult (V E : Type) where
  job_id : Nat
  outcome : JobOutcome
  return_value : V
  exception : E

/-- What `run_job` does after `get_job_result` returns: return a value or
raise one of the three exceptions. -/
inductive RunJobResult (V E : Type)
  | returned (v : V)
  | raised_exception (e : E)
  | raised_deadline_missed
  | raised_cancelled

/-- The outcome dispatch at the end of `Scheduler.run_job` /
`AsyncScheduler.run_job`. -/
def run_job_unwrap {V E : Type} (result : FullJobResult V E) : RunJobResult V E :=
  match result.outcome with
  | JobOutcome.success => RunJobResult.returned result.return_value
  | JobOutcome.error => RunJobResult.raised_exception result.exception
  | JobOutcome.missed_start_deadline => RunJobResult.raised_deadline_missed
  | JobOutcome.cancelled => RunJobResult.raised_cancelled

/-! ## Data-store state -/

/-- A row of the `tasks` table (`structures.Task` as persisted); only the
columns the claims touch are modelled. -/
structure Task where
  id : String
  max_running_jobs : Option Int
  running_jobs : Int
deriving DecidableEq

/-- A row of the `jobs` table; only the columns `acquire_jobs` reads or
writes are modelled.  `acquired_until = none` models both SQL `NULL` and a
missing MongoDB field. -/
structure Job where
  id : Nat
  task_id : String
  created_at : Int
  acquired_by : Option String
  acquired_until : Option Int
deriving DecidableEq

/-- A row of the `job_results` table; `job_id` is its primary key. -/
structure JobResultRow where
  job_id : Nat
  outcome : JobOutcome
deriving DecidableEq

/-- The job-side store state shared by `acquire_jobs` and `release_job`. -/
structure JobStore where
  tasks : List Task
  jobs : List Job
  job_results : List JobResultRow
deriving DecidableEq

/-- A row of the `schedules` table; only the columns the claims touch are
modelled. -/
structure Schedule where
  id : String
  task_id : String
  next_fire_time : Option Int
  acquired_by : Option String
  acquired_until : Option Int
deriving DecidableEq

/-! ## `acquire_jobs` -/

/-- The lease filter of `acquire_jobs` in both backends: the job's
`acquired_until` is null/absent or lies in the past. -/
def job_lease_free (now : Int) (j : Job) : Bool :=
  match j.acquired_until with
  | none => true
  | some u => u < now

/-- Ascending `created_at`, the sort key of the candidate query. -/
def createdAtLE (a b : Job) : Prop := a.created_at ≤ b.created_at

instance : DecidableRel createdAtLE := fun a b =>
  (inferInstance : Decidable (a.created_at ≤ b.created_at))

instance : IsTotal Job createdAtLE := ⟨fun a b => Int.le_total a.created_at b.created_at⟩

instance : IsTrans Job createdAtLE := ⟨fun _ _ _ h1 h2 => le_trans h1 h2⟩

/-- An SQL `LIMIT limit` / MongoDB `limit=limit`; `none` means no limit. -/
def take_limit {α : Type} (limit : Option Nat) (l : List α) : List α :=
  match limit with
  | none => l
  | some n => l.take n

/-- The candidate query of `acquire_jobs`: jobs whose lease is absent or
expired, ordered by ascending `created_at`, up to `limit`. -/
def job_candidates (store : JobStore) (now : Int) (limit : Option Nat) : List Job :=
  take_limit limit (List.insertionSort createdAtLE (store.jobs.filter (job_lease_free now)))

/-- The `job_slots_left` mapping: for each referenced task that has a
`max_running_jobs` limit, the value `max_running_jobs - running_jobs`. -/
def job_slots_left_init (tasks : List Task) (task_ids : List String) : List (String × Int) :=
  tasks.filterMap (fun t =>
    match t.max_running_jobs with
    | some m => if task_ids.contains t.id then some (t.id, m - t.running_jobs) else none
    | none => none)

/-- `job_slots_left[tid] = v`. -/
def set_slot (slots : List (String × Int)) (tid : String) (v : Int) : List (String × Int) :=
  slots.map (fun p => if p.1 = tid then (p.1, v) else p)

/-- The admission loop of `acquire_jobs` (identical in both backends): skip a
job when its task's slot counter is exactly 0, otherwise admit it and, when
the task has a counter, decrement it. -/
def admit_jobs (slots : List (String × Int)) : List Job → List Job
  | [] => []
  | j :: rest =>
    match slots.lookup j.task_id with
    | some n =>
      if n = 0 then admit_jobs slots rest
      else j :: admit_jobs (set_slot slots j.task_id (n - 1)) rest
    | none => j :: admit_jobs slots rest

/-- Follows the spec's words (claim C1 as stated): admit a job exactly when
its task has no limit or its remaining slot count is strictly greater than 0,
decrementing the in-memory counter for each admission. -/
def spec_admit_jobs (slots : List (String × Int)) : List Job → List Job
  | [] => []
  | j :: rest =>
    match slots.lookup j.task_id with
    | some n =>
      if 0 < n then j :: spec_admit_jobs (set_slot slots j.task_id (n - 1)) rest
      else spec_admit_jobs slots rest
    | none => j :: spec_admit_jobs slots rest

/-- Follows the amended claim's words: admit a job exactly when its task has
no limit or its remaining slot count is nonzero, decrementing the in-memory
counter for each admission. -/
def amended_admit_jobs (slots : List (String × Int)) : List Job → List Job
  | [] => []
  | j :: rest =>
    match slots.lookup j.task_id with
    | some n =>
      if n ≠ 0 then j :: amended_admit_jobs (set_slot slots j.task_id (n - 1)) rest
      else amended_admit_jobs slots rest
    | none => j :: amended_admit_jobs slots rest

/-- `MongoDBDataStore.acquire_jobs` (the SQLAlchemy version differs only in
that its candidate query inner-joins `tasks`): select candidates in
`created_at` order, load the slot counters, run the admission loop, lease the
admitted jobs, and increment each task's `running_jobs` by the number of its
admitted jobs.  Returns the admitted jobs (as read, pre-update) and the new
store state. -/
def acquire_jobs (store : JobStore) (worker_id : String) (now lock_expiration_delay : Int)
    (limit : Option Nat) : List Job × JobStore :=
  let candidates := job_candidates store now limit
  let task_ids := (candidates.map (fun j => j.task_id)).eraseDups
  let slots := job_slots_left_init store.tasks task_ids
  let acquired := admit_jobs slots candidates
  let acquired_ids := acquired.map (fun j => j.id)
  let acquired_until := now + lock_expiration_delay
  let jobs1 := store.jobs.map (fun j =>
    if acquired_ids.contains j.id then
      { j with acquired_by := some worker_id, acquired_until := some acquired_until }
    else j)
  let tasks1 := store.tasks.map (fun t =>
    { t with running_jobs :=
        t.running_jobs + ((acquired.filter (fun j => j.task_id == t.id)).length : Int) })
  (acquired, { store with tasks := tasks1, jobs := jobs1 })

/-! ## `acquire_schedules` -/

/-- Ascending `next_fire_time`, the sort key of both schedule queries (the
key is always non-null on the rows being sorted). -/
def nextFireTimeLE (a b : Schedule) : Prop :=
  a.next_fire_time.getD 0 ≤ b.next_fire_time.getD 0

instance : DecidableRel nextFireTimeLE := fun a b =>
  (inferInstance : Decidable (a.next_fire_time.getD 0 ≤ b.next_fire_time.getD 0))

instance : IsTotal Schedule nextFireTimeLE :=
  ⟨fun a b => Int.le_total (a.next_fire_time.getD 0) (b.next_fire_time.getD 0)⟩

instance : IsTrans Schedule nextFireTimeLE := ⟨fun _ _ _ h1 h2 => le_trans h1 h2⟩

/-- The selection filter of `SQLAlchemyDataStore.acquire_schedules`:
`next_fire_time` is not null and `≤ now`, and the lease is absent or
expired. -/
def sqlalchemy_schedule_due (now : Int) (s : Schedule) : Bool :=
  (match s.next_fire_time with
   | some t => t ≤ now
   | none => false) &&
  (match s.acquired_until with
   | none => true
   | some u => u < now)

/-- The selection filter of `MongoDBDataStore.acquire_schedules`:
`next_fire_time` is not null and the lease is absent or expired (there is no
`next_fire_time <= now` condition in the query). -/
def mongodb_schedule_filter (now : Int) (s : Schedule) : Bool :=
  s.next_fire_time.isSome &&
  (match s.acquired_until with
   | none => true
   | some u => u < now)

/-- `SQLAlchemyDataStore.acquire_schedules` (the `UPDATE ... RETURNING`
branch): select due rows ordered by `next_fire_time` up to `limit`, set their
lease fields, and return the updated rows.  Returns the rows handed to the
caller and the new table. -/
def sqlalchemy_acquire_schedules (table : List Schedule) (scheduler_id : String)
    (now lock_expiration_delay : Int) (limit : Nat) : List Schedule × List Schedule :=
  let acquired_until := now + lock_expiration_delay
  let selected :=
    (List.insertionSort nextFireTimeLE (table.filter (sqlalchemy_schedule_due now))).take limit
  let ids := selected.map (fun s => s.id)
  let table1 := table.map (fun s =>
    if ids.contains s.id then
      { s with acquired_by := some scheduler_id, acquired_until := some acquired_until }
    else s)
  (selected.map (fun s =>
    { s with acquired_by := some scheduler_id, acquired_until := some acquired_until }), table1)

/-- `MongoDBDataStore.acquire_schedules`: select matching documents sorted by
`next_fire_time` up to `limit`, then set the lease fields on them.  Returns
the documents as read (pre-update) and the new collection. -/
def mongodb_acquire_schedules (table : List Schedule) (scheduler_id : String)
    (now lock_expiration_delay : Int) (limit : Nat) : List Schedule × List Schedule :=
  let selected :=
    (List.insertionSort nextFireTimeLE (table.filter (mongodb_schedule_filter now))).take limit
  let acquired_until := now + lock_expiration_delay
  let ids := selected.map (fun s => s.id)
  let table1 := table.map (fun s =>
    if ids.contains s.id then
      { s with acquired_by := some scheduler_id, acquired_until := some acquired_until }
    else s)
  (selected, table1)

/-! ## `release_schedules` -/

/-- One schedule object passed to `release_schedules`: its id, the
`next_fire_time` computed by the tick, and whether re-serializing its trigger
succeeds. -/
structure ReleasedSchedule where
  id : String
  next_fire_time : Option Int
  trigger_serializable : Bool
deriving DecidableEq

/-- `SQLAlchemyDataStore.release_schedules`: schedules with a next fire time
and a serializable trigger are updated (new `next_fire_time`, lease cleared)
under the guard `acquired_by = scheduler_id`; the rest are deleted by id
alone — the DELETE statement carries no `acquired_by` guard. -/
def sqlalchemy_release_schedules (table : List Schedule) (scheduler_id : String)
    (released : List ReleasedSchedule) : List Schedule :=
  let update_args := released.filterMap (fun r =>
    match r.next_fire_time with
    | some t => if r.trigger_serializable then some (r.id, t) else none
    | none => none)
  let finished_ids := released.filterMap (fun r =>
    match r.next_fire_time with
    | some _ => if r.trigger_serializable then none else some r.id
    | none => some r.id)
  let table1 := table.map (fun s =>
    match update_args.lookup s.id with
    | some t =>
      if s.acquired_by = some scheduler_id then
        { s with next_fire_time := some t, acquired_by := none, acquired_until := none }
      else s
    | none => s)
  table1.filter (fun s => !(finished_ids.contains s.id))

/-- `MongoDBDataStore.release_schedules`: every `UpdateOne` and `DeleteOne`
request uses the filter `{_id: schedule.id, acquired_by: scheduler_id}`. -/
def mongodb_release_schedules (table : List Schedule) (scheduler_id : String)
    (released : List ReleasedSchedule) : List Schedule :=
  released.foldl (fun tb r =>
    match r.next_fire_time with
    | some t =>
      if r.trigger_serializable then
        tb.map (fun s =>
          if s.id = r.id ∧ s.acquired_by = some scheduler_id then
            { s with next_fire_time := some t, acquired_by := none, acquired_until := none }
          else s)
      else tb.filter (fun s => !(s.id = r.id ∧ s.acquired_by = some scheduler_id : Bool))
    | none => tb.filter (fun s => !(s.id = r.id ∧ s.acquired_by = some scheduler_id : Bool)))
    table

/-! ## `get_next_schedule_run_time` -/

/-- `SQLAlchemyDataStore.get_next_schedule_run_time`: the query selects the
`id` column of the schedule with the smallest non-null `next_fire_time`, and
the scalar result — the id, not a timestamp — is returned. -/
def sqlalchemy_get_next_schedule_run_time (table : List Schedule) : Option String :=
  ((List.insertionSort nextFireTimeLE
    (table.filter (fun s => s.next_fire_time.isSome))).map (fun s => s.id)).head?

/-- The `next_run_time` value of a marshalled schedule document.  Schedule
documents are written with the attributes of `structures.Schedule` (`id`,
`task_id`, `trigger`, ..., `next_fire_time`, `acquired_by`,
`acquired_until`); no writer ever creates a `next_run_time` field, so reading
it yields a missing value on every document. -/
def schedule_doc_next_run_time (_s : Schedule) : Option Int := none

/-- `MongoDBDataStore.get_next_schedule_run_time`: `find_one` filtered on
`next_run_time != null`, sorted by `next_run_time` ascending, returning the
document's `next_run_time` value — i.e. the least `next_run_time` among the
documents that have one. -/
def mongodb_get_next_schedule_run_time (table : List Schedule) : Option Int :=
  ((table.filter (fun s => (schedule_doc_next_run_time s).isSome)).filterMap
    schedule_doc_next_run_time).min?

/-- Follows the spec's words: the minimum `next_fire_time` over all schedules
whose `next_fire_time` is not null, or `none` when no such schedule exists. -/
def spec_next_schedule_run_time (table : List Schedule) : Option Int :=
  (table.filterMap (fun s => s.next_fire_time)).min?

/-! ## `release_job` -/

/-- Store-level failure observable from `release_job`: violating the primary
key of `job_results` (SQL `IntegrityError` / Mongo `DuplicateKeyError`). -/
inductive StoreError
  | duplicate_key
deriving DecidableEq

/-- `release_job` (both backends): in one transaction, insert the result row,
decrement the task's `running_jobs`, and delete the job row — each step
unconditional.  Inserting a result whose `job_id` already exists violates the
primary key; the transaction rolls back and the error propagates. -/
def release_job (store : JobStore) (_worker_id task_id : String) (result : JobResultRow) :
    Except StoreError JobStore :=
  if store.job_results.any (fun r => r.job_id == result.job_id) then
    Except.error StoreError.duplicate_key
  else
    Except.ok
      { tasks := store.tasks.map (fun t =>
          if t.id == task_id then { t with running_jobs := t.running_jobs - 1 } else t),
        jobs := store.jobs.filter (fun j => j.id != result.job_id),
        job_results := store.job_results ++ [result] }

/-! ## Supporting lemmas -/

/-- The admission loop returns a sublist of the candidate list. -/
theorem admit_jobs_sublist (slots : List (String × Int)) (l : List Job) :
    (admit_jobs slots l).Sublist l := by
  induction l generalizing slots with
  | nil => simp [admit_jobs]
  | cons j rest ih =>
    simp only [admit_jobs]
    split
    · split
      · exact (ih slots).cons j
      · exact (ih _).cons₂ j
    · exact (ih slots).cons₂ j

/-- The code's admission loop coincides with the amended-claim wording: skip
exactly when the slot counter is present and zero. -/
theorem admit_jobs_eq_amended (slots : List (String × Int)) (l : List Job) :
    admit_jobs slots l = amended_admit_jobs slots l := by
  induction l generalizing slots with
  | nil => rfl
  | cons j rest ih =>
    simp only [admit_jobs, amended_admit_jobs]
    split
    · next n _ =>
      by_cases hn : n = 0 <;> simp [hn, ih]
    · simp [ih]

/-- The candidate list of `acquire_jobs` is sorted by ascending `created_at`. -/
theorem job_candidates_sorted (store : JobStore) (now : Int) (limit : Option Nat) :
    (job_candidates store now limit).Pairwise createdAtLE := by
  unfold job_candidates take_limit
  cases limit with
  | none => exact List.sorted_insertionSort createdAtLE _
  | some n =>
    exact List.Pairwise.sublist (List.take_sublist n _)
      (List.sorted_insertionSort createdAtLE _)

/-- Candidates of `acquire_jobs` are jobs of the store whose lease is absent
or expired. -/
theorem mem_of_mem_job_candidates {store : JobStore} {now : Int} {limit : Option Nat} {j : Job}
    (h : j ∈ job_candidates store now limit) :
    j ∈ store.jobs ∧ job_lease_free now j = true := by
  unfold job_candidates take_limit at h
  have h1 : j ∈ List.insertionSort createdAtLE (store.jobs.filter (job_lease_free now)) := by
    cases limit with
    | none => exact h
    | some n => exact List.mem_of_mem_take h
  have h2 : j ∈ store.jobs.filter (job_lease_free now) :=
    (List.perm_insertionSort createdAtLE _).mem_iff.mp h1
  exact ⟨(List.mem_filter.mp h2).1, (List.mem_filter.mp h2).2⟩

/-- Prepending release-free events preserves `release_before_job = false`. -/
theorem release_before_job_append_jobs (js : List TickEvent)
    (h : ∀ e ∈ js, ∀ ids, e ≠ TickEvent.release ids) (tail : List TickEvent)
    (ht : release_before_job tail = false) :
    release_before_job (js ++ tail) = false := by
  induction js with
  | nil => simpa using ht
  | cons e rest ih =>
    cases e with
    | add_job sid ft =>
      simp only [List.cons_append, release_before_job]
      exact ih (fun e he ids => h e (List.mem_cons_of_mem _ he) ids)
    | release ids => exact absurd rfl (h _ (List.mem_cons_self _ _) ids)

/-- In a tick of the synchronous `Scheduler.run`, no schedule is released
before any of its jobs is added: `release_schedules` is the last store call
of the tick. -/
theorem sync_release_after_all_jobs (now : Int) (schedules : List ScheduleState) :
    release_before_job (sync_tick_trace now schedules) = false := by
  unfold sync_tick_trace
  apply release_before_job_append_jobs
  · intro e he ids
    rcases List.mem_flatMap.mp he with ⟨s, _, hmem⟩
    rcases List.mem_map.mp hmem with ⟨j, _, rfl⟩
    simp
  · simp [release_before_job]

/-! ## The claims -/

/-- Claim C1, amended: in `acquire_jobs`, candidate jobs are considered in
ascending `created_at` order and a job is admitted exactly when its task has
no `max_running_jobs` limit or its remaining slot count
`slots_left = max_running_jobs - running_jobs` (decremented in memory per
prior admission in the same call) is nonzero — so a negative slot count also
admits; skipped jobs are left unmodified in the store and stay eligible for
any later acquisition, and each task's `running_jobs` is incremented by the
number of its admitted jobs. -/
theorem acquire_jobs_admission_amended (store : JobStore) (wid : String)
    (now d : Int) (limit : Option Nat)
    (hids : (store.jobs.map (fun j => j.id)).Nodup) :
    ((acquire_jobs store wid now d limit).1 =
        amended_admit_jobs
          (job_slots_left_init store.tasks
            ((job_candidates store now limit).map (fun j => j.task_id)).eraseDups)
          (job_candidates store now limit)) ∧
    ((acquire_jobs store wid now d limit).1).Sublist (job_candidates store now limit) ∧
    ((acquire_jobs store wid now d limit).1).Pairwise createdAtLE ∧
    (∀ j ∈ job_candidates store now limit, j ∉ (acquire_jobs store wid now d limit).1 →
      j ∈ (acquire_jobs store wid now d limit).2.jobs ∧
        ∀ now2, now ≤ now2 → job_lease_free now2 j = true) ∧
    (∀ t ∈ store.tasks,
      { t with running_jobs := t.running_jobs +
          (((acquire_jobs store wid now d limit).1.filter
              (fun j => j.task_id == t.id)).length : Int) } ∈
        (acquire_jobs store wid now d limit).2.tasks) := by
  refine ⟨admit_jobs_eq_amended _ _, admit_jobs_sublist _ _, ?_, ?_, ?_⟩
  · exact List.Pairwise.sublist (admit_jobs_sublist _ _) (job_candidates_sorted store now limit)
  · intro j hj hnj
    have hjs : j ∈ store.jobs := (mem_of_mem_job_candidates hj).1
    have hfree : job_lease_free now j = true := (mem_of_mem_job_candidates hj).2
    have hid : ¬ j.id ∈ ((acquire_jobs store wid now d limit).1.map (fun x => x.id)) := by
      intro hmem
      rcases List.mem_map.mp hmem with ⟨j2, hj2, hide⟩
      have hj2c : j2 ∈ job_candidates store now limit :=
        (admit_jobs_sublist _ _).subset hj2
      have hj2s : j2 ∈ store.jobs := (mem_of_mem_job_candidates hj2c).1
      have : j2 = j := List.inj_on_of_nodup_map hids hj2s hjs hide
      subst this
      exact hnj hj2
    constructor
    · refine List.mem_map.mpr ⟨j, hjs, ?_⟩
      exact if_neg (fun hc => hid (by simpa using hc))
    · intro now2 h2
      unfold job_lease_free at hfree ⊢
      cases hu : j.acquired_until with
      | none => rfl
      | some u =>
        rw [hu] at hfree
        simp only [decide_eq_true_eq] at hfree
        simp only [decide_eq_true_eq]
        omega
  · intro t ht
    exact List.mem_map_of_mem _ ht

/-- Witness for C1: a store with one task (`max_running_jobs = 2`,
`running_jobs = 0`) and three due jobs; the theorem applies with the `Nodup`
hypothesis discharged by `decide`. -/
theorem acquire_jobs_admission_amended_witness :
    (acquire_jobs ⟨[⟨"t1", some 2, 0⟩],
        [⟨1, "t1", 0, none, none⟩, ⟨2, "t1", 1, none, none⟩, ⟨3, "t1", 2, none, none⟩], []⟩
        "w1" 10 30 none).1 =
      amended_admit_jobs
        (job_slots_left_init [⟨"t1", some 2, 0⟩]
          (((job_candidates ⟨[⟨"t1", some 2, 0⟩],
              [⟨1, "t1", 0, none, none⟩, ⟨2, "t1", 1, none, none⟩, ⟨3, "t1", 2, none, none⟩], []⟩
              10 none).map (fun j => j.task_id)).eraseDups))
        (job_candidates ⟨[⟨"t1", some 2, 0⟩],
            [⟨1, "t1", 0, none, none⟩, ⟨2, "t1", 1, none, none⟩, ⟨3, "t1", 2, none, none⟩], []⟩
            10 none) :=
  (acquire_jobs_admission_amended
    ⟨[⟨"t1", some 2, 0⟩],
      [⟨1, "t1", 0, none, none⟩, ⟨2, "t1", 1, none, none⟩, ⟨3, "t1", 2, none, none⟩], []⟩
    "w1" 10 30 none (by decide)).1

/-- Counterexample for C1 as stated: a task with `max_running_jobs = 1` and
`running_jobs = 2` has `slots_left = -1`, which is not strictly greater
than 0, so the claim demands the job be skipped — but the code (which skips
only on `slots_left == 0`) admits it. -/
theorem acquire_jobs_negative_slots_counterexample :
    (acquire_jobs ⟨[⟨"t1", some 1, 2⟩], [⟨1, "t1", 0, none, none⟩], []⟩ "w1" 10 30 none).1 =
      [⟨1, "t1", 0, none, none⟩] ∧
    spec_admit_jobs
      (job_slots_left_init [⟨"t1", some 1, 2⟩]
        (((job_candidates ⟨[⟨"t1", some 1, 2⟩], [⟨1, "t1", 0, none, none⟩], []⟩ 10 none).map
          (fun j => j.task_id)).eraseDups))
      (job_candidates ⟨[⟨"t1", some 1, 2⟩], [⟨1, "t1", 0, none, none⟩], []⟩ 10 none) = [] := by
  decide

/-- Claim C2: for an acquired schedule whose trigger produces past fire times
`t1 < t2 < t3` (with `t1` the stored `next_fire_time`, the trigger yielding
`t2, t3`) followed by a future time `tf`, one tick creates jobs for exactly
`[t1]` under `earliest`, `[t3]` under `latest`, `[t1, t2, t3]` under `all`,
and sets the new `next_fire_time` to `tf` in all three cases. -/
theorem coalesce_laws (now t1 t2 t3 tf : Int) (sid tid : String)
    (_h12 : t1 < t2) (h23 : t2 < t3) (h3 : t3 ≤ now) (hf : now < tf) :
    process_schedule now ⟨sid, tid, CoalescePolicy.earliest, t1,
        [TrigStep.yields (some t2), TrigStep.yields (some t3), TrigStep.yields (some tf)]⟩ =
      ([⟨tid, sid, t1⟩], some tf) ∧
    process_schedule now ⟨sid, tid, CoalescePolicy.latest, t1,
        [TrigStep.yields (some t2), TrigStep.yields (some t3), TrigStep.yields (some tf)]⟩ =
      ([⟨tid, sid, t3⟩], some tf) ∧
    process_schedule now ⟨sid, tid, CoalescePolicy.all, t1,
        [TrigStep.yields (some t2), TrigStep.yields (some t3), TrigStep.yields (some tf)]⟩ =
      ([⟨tid, sid, t1⟩, ⟨tid, sid, t2⟩, ⟨tid, sid, t3⟩], some tf) := by
  have h2' : ¬ now < t2 := by omega
  have h3' : ¬ now < t3 := by omega
  refine ⟨?_, ?_, ?_⟩ <;>
    simp [process_schedule, fire_times_loop, h2', h3', hf]

/-- Witness for C2 at `t1 = 1 < t2 = 2 < t3 = 3 ≤ now = 10 < tf = 20`. -/
theorem coalesce_laws_witness :
    process_schedule 10 ⟨"s", "t", CoalescePolicy.latest, 1,
        [TrigStep.yields (some 2), TrigStep.yields (some 3), TrigStep.yields (some 20)]⟩ =
      ([⟨"t", "s", 3⟩], some 20) :=
  (coalesce_laws 10 1 2 3 20 "s" "t" (by decide) (by decide) (by decide) (by decide)).2.1

/-- Claim C3 (code bug, MongoDB backend): `MongoDBDataStore.acquire_schedules`
omits the `next_fire_time <= now` condition, so at `now = 10` it returns and
leases a schedule whose `next_fire_time` is 20 — a schedule that is not due —
while the SQLAlchemy backend correctly returns nothing. -/
theorem mongodb_acquire_schedules_returns_undue :
    (mongodb_acquire_schedules [⟨"s1", "t1", some 20, none, none⟩] "sched-a" 10 30 100).1 =
      [⟨"s1", "t1", some 20, none, none⟩] ∧
    (mongodb_acquire_schedules [⟨"s1", "t1", some 20, none, none⟩] "sched-a" 10 30 100).2 =
      [⟨"s1", "t1", some 20, some "sched-a", some 40⟩] ∧
    (sqlalchemy_acquire_schedules [⟨"s1", "t1", some 20, none, none⟩] "sched-a" 10 30 100).1 =
      [] ∧
    ¬ (20 : Int) ≤ 10 := by decide

/-- Claim C4 (code bug, async scheduler): `AsyncScheduler.run` calls
`release_schedules` with the whole acquired batch inside the per-schedule
loop, so with two acquired schedules the first release happens before the
second schedule's job is added; the resulting trace releases "s2" before
adding its job. -/
theorem async_release_before_jobs_bug :
    async_tick_trace 10
        [⟨"s1", "t", CoalescePolicy.latest, 0, [TrigStep.yields none]⟩,
         ⟨"s2", "t", CoalescePolicy.latest, 0, [TrigStep.yields none]⟩] =
      [TickEvent.add_job "s1" 0, TickEvent.release ["s1", "s2"],
       TickEvent.add_job "s2" 0, TickEvent.release ["s1", "s2"]] ∧
    release_before_job (async_tick_trace 10
        [⟨"s1", "t", CoalescePolicy.latest, 0, [TrigStep.yields none]⟩,
         ⟨"s2", "t", CoalescePolicy.latest, 0, [TrigStep.yields none]⟩]) = true := by
  constructor <;> rfl

/-- Claim C5 (code bug, SQLAlchemy backend): the DELETE branch of
`release_schedules` filters by id alone, so releasing a finished schedule
(`next_fire_time = null`) deletes the row even though its lease has been
taken over by another scheduler (`acquired_by = "other" ≠ "self"`); the
MongoDB backend guards the delete and leaves the row unchanged. -/
theorem sqlalchemy_release_deletes_foreign_lease :
    sqlalchemy_release_schedules [⟨"s1", "t1", some 99, some "other", some 50⟩] "self"
      [⟨"s1", none, true⟩] = [] ∧
    mongodb_release_schedules [⟨"s1", "t1", some 99, some "other", some 50⟩] "self"
      [⟨"s1", none, true⟩] = [⟨"s1", "t1", some 99, some "other", some 50⟩] ∧
    (some "other" : Option String) ≠ some "self" := by decide

/-- Counterexample for C6 as stated: with no job row of id 7 in the store,
`release_job` is not a no-op — it inserts the result row and decrements the
task's `running_jobs` to -1. -/
theorem release_job_missing_job_not_noop :
    (∀ j ∈ (⟨[⟨"t1", none, 0⟩], [], []⟩ : JobStore).jobs, j.id ≠ 7) ∧
    release_job ⟨[⟨"t1", none, 0⟩], [], []⟩ "w1" "t1" ⟨7, JobOutcome.success⟩ =
      Except.ok ⟨[⟨"t1", none, -1⟩], [], [⟨7, JobOutcome.success⟩]⟩ :=
  ⟨by decide, rfl⟩

/-- Claim C6, amended: `release_job` unconditionally inserts the result row,
decrements the task's `running_jobs`, and deletes the job row, whether or not
a job row with `result.job_id` exists; when a result row with that `job_id`
already exists, the insert violates the primary key, the transaction fails
with a duplicate-key error and nothing changes — so a second result row for
the same `job_id` is never inserted, but the error does escape. -/
theorem release_job_amended (store : JobStore) (wid tid : String) (result : JobResultRow) :
    ((¬ ∃ r ∈ store.job_results, r.job_id = result.job_id) →
      ∃ store2, release_job store wid tid result = Except.ok store2 ∧
        store2.job_results = store.job_results ++ [result] ∧
        store2.jobs = store.jobs.filter (fun j => j.id != result.job_id) ∧
        (∀ t ∈ store.tasks, t.id = tid →
          { t with running_jobs := t.running_jobs - 1 } ∈ store2.tasks) ∧
        (∀ t ∈ store.tasks, t.id ≠ tid → t ∈ store2.tasks)) ∧
    ((∃ r ∈ store.job_results, r.job_id = result.job_id) →
      release_job store wid tid result = Except.error StoreError.duplicate_key) := by
  constructor
  · intro h
    have hany : store.job_results.any (fun r => r.job_id == result.job_id) = false := by
      simp only [List.any_eq_false, beq_iff_eq]
      exact fun r hr he => h ⟨r, hr, he⟩
    refine ⟨_, by rw [release_job, hany]; rfl, rfl, rfl, ?_, ?_⟩
    · intro t ht hid
      have := List.mem_map_of_mem (fun t : Task =>
        if t.id == tid then { t with running_jobs := t.running_jobs - 1 } else t) ht
      simpa [hid] using this
    · intro t ht hid
      have := List.mem_map_of_mem (fun t : Task =>
        if t.id == tid then { t with running_jobs := t.running_jobs - 1 } else t) ht
      simpa [hid] using this
  · intro h
    have hany : store.job_results.any (fun r => r.job_id == result.job_id) = true := by
      rcases h with ⟨r, hr, he⟩
      simp only [List.any_eq_true, beq_iff_eq]
      exact ⟨r, hr, he⟩
    rw [release_job, hany]
    rfl

/-- Witness for C6: releasing job 7 on a store that holds its job row and no
prior result, with the no-existing-result hypothesis discharged by
`decide`. -/
theorem release_job_amended_witness :
    ∃ store2,
      release_job (⟨[⟨"t1", none, 5⟩], [⟨7, "t1", 0, some "w1", some 40⟩], []⟩ : JobStore)
          "w1" "t1" ⟨7, JobOutcome.success⟩ = Except.ok store2 ∧
      store2.job_results = [] ++ [⟨7, JobOutcome.success⟩] ∧
      store2.jobs = ([⟨7, "t1", 0, some "w1", some 40⟩] : List Job).filter
        (fun j => j.id != 7) ∧
      (∀ t ∈ ([⟨"t1", none, 5⟩] : List Task), t.id = "t1" →
        { t with running_jobs := t.running_jobs - 1 } ∈ store2.tasks) ∧
      (∀ t ∈ ([⟨"t1", none, 5⟩] : List Task), t.id ≠ "t1" → t ∈ store2.tasks) :=
  (release_job_amended ⟨[⟨"t1", none, 5⟩], [⟨7, "t1", 0, some "w1", some 40⟩], []⟩
    "w1" "t1" ⟨7, JobOutcome.success⟩).1 (by decide)

/-- Claim C7 (code bug): when `trigger.next()` raises on a schedule whose
stored `next_fire_time` is 0 (due at `now = 10`), the tick still creates a
job for fire time 0 and leaves `next_fire_time = some 0` (not null), so the
subsequent `release_schedules` updates the schedule instead of deleting
it. -/
theorem trigger_error_keeps_schedule_and_fires :
    process_schedule 10 ⟨"s1", "t1", CoalescePolicy.latest, 0, [TrigStep.raises]⟩ =
      ([⟨"t1", "s1", 0⟩], some 0) ∧
    sqlalchemy_release_schedules [⟨"s1", "t1", some 0, some "sched-a", some 40⟩] "sched-a"
      [⟨"s1", some 0, true⟩] = [⟨"s1", "t1", some 0, none, none⟩] := by decide

/-- Claim C8 (code bug): on a table holding schedules with next fire times 5
and 9, the SQLAlchemy `get_next_schedule_run_time` returns the schedule id
`"s1"` (not a timestamp), the MongoDB one — which queries the nonexistent
`next_run_time` field — returns `none`, while the specified result is the
minimum `next_fire_time`, 5. -/
theorem get_next_schedule_run_time_bug :
    sqlalchemy_get_next_schedule_run_time
        [⟨"s1", "t1", some 5, none, none⟩, ⟨"s2", "t1", some 9, none, none⟩] = some "s1" ∧
    mongodb_get_next_schedule_run_time
        [⟨"s1", "t1", some 5, none, none⟩, ⟨"s2", "t1", some 9, none, none⟩] = none ∧
    spec_next_schedule_run_time
        [⟨"s1", "t1", some 5, none, none⟩, ⟨"s2", "t1", some 9, none, none⟩] = some 5 := by
  decide

/-- Claim C9 (code bug): with 0 schedules acquired, `now = 100` and next fire
time 130, the code computes `now - next_fire_time = -30` while the specified
wait is `max(next_fire_time - now, 0) = 30`. -/
theorem wait_time_sign_inverted :
    wait_time 0 100 (some 130) = some (-30) ∧
    spec_wait_time 0 100 (some 130) = some 30 ∧
    wait_time 0 100 (some 130) ≠ spec_wait_time 0 100 (some 130) := by decide

/-- Claim C10: `run_job` returns the recorded return value exactly when the
outcome is `success`, re-raises the recorded exception exactly on `error`,
raises `JobDeadlineMissed` exactly on `missed_start_deadline`, raises
`JobCancelled` exactly on `cancelled`, and never returns a value for any
other outcome. -/
theorem run_job_unwraps_by_outcome {V E : Type} (r : FullJobResult V E) :
    (run_job_unwrap r = RunJobResult.returned r.return_value ↔
      r.outcome = JobOutcome.success) ∧
    (run_job_unwrap r = RunJobResult.raised_exception r.exception ↔
      r.outcome = JobOutcome.error) ∧
    (run_job_unwrap r = RunJobResult.raised_deadline_missed ↔
      r.outcome = JobOutcome.missed_start_deadline) ∧
    (run_job_unwrap r = RunJobResult.raised_cancelled ↔
      r.outcome = JobOutcome.cancelled) ∧
    (∀ v, run_job_unwrap r = RunJobResult.returned v →
      r.outcome = JobOutcome.success ∧ v = r.return_value) := by
  rcases r with ⟨jid, outcome, rv, ex⟩
  cases outcome <;> simp [run_job_unwrap]

end APScheduler
